import Mathlib

/-!
Verification development for the vatsim-replay repository.

Shallow embedding of the core of the server:
* the airspace matcher (src/server/src/airspaceMatcher.js): ray-casting
  point-in-polygon test, bounding-box computation, feature extraction and
  lookup;
* the time-series store accessor (src/server/src/db.js, first copy):
  insertSnapshots, pruneOld, getSnapshotTimestampsInRange,
  getSnapshotsAtTimestamps and the filter-clause builders;
* the /api/preload-snapshots handler (src/unnamed/part_003, lines 346-484):
  validation, bucket-grid enumeration, the monotonic nearest-timestamp scan,
  fetch deduplication and row redistribution.

JavaScript numbers are modelled as rationals (coordinates) and integers
(timestamps, altitudes); all values occurring are exactly representable, so
no floating-point rounding is modelled.  Fallible operations return Option
or Except.  Definitions are translated from the source files; comments note
the few spots where a JS dynamic check (Number.isFinite on an already-integer
value, Array.isArray on a typed value) is vacuous in the typed model.
-/

namespace VatsimReplay

/-! ## JavaScript string trim (String.prototype.trim) -/

/-- Whitespace test used by the model of String.prototype.trim. -/
def jsIsWhitespace (c : Char) : Bool := c.isWhitespace

/-- Character-list core of String.prototype.trim: drop leading whitespace,
then drop trailing whitespace. -/
def trimChars (l : List Char) : List Char :=
  ((l.dropWhile jsIsWhitespace).reverse.dropWhile jsIsWhitespace).reverse

/-- Model of JavaScript String.prototype.trim. -/
def jsTrim (s : String) : String := ⟨trimChars s.data⟩

theorem dropWhile_dropWhile (p : α → Bool) (l : List α) :
    (l.dropWhile p).dropWhile p = l.dropWhile p := by
  induction l with
  | nil => rfl
  | cons a t ih =>
    by_cases h : p a
    · simp [List.dropWhile_cons, h, ih]
    · simp [List.dropWhile_cons, h]

theorem dropWhile_eq_self_of_prefix (p : α → Bool) {m n : List α}
    (hm : m.dropWhile p = m) (hpre : n <+: m) : n.dropWhile p = n := by
  cases n with
  | nil => rfl
  | cons a nt =>
    obtain ⟨t, ht⟩ := hpre
    have hpa : p a = false := by
      by_contra hcon
      have hpa' : p a = true := by
        cases hp : p a
        · exact absurd hp hcon
        · rfl
      have : m.dropWhile p = (nt ++ t).dropWhile p := by
        rw [← ht]
        simp only [List.cons_append]
        rw [List.dropWhile_cons_of_pos hpa']
      have hlen := congrArg List.length this
      have h1 : m.length = nt.length + t.length + 1 := by
        rw [← ht]; simp [Nat.add_comm, Nat.add_left_comm]
      have h2 : ((nt ++ t).dropWhile p).length ≤ (nt ++ t).length :=
        (List.dropWhile_sublist p).length_le
      rw [hm] at hlen
      simp only [List.length_append] at h2 hlen
      omega
    rw [List.dropWhile_cons_of_neg (by simp [hpa])]

theorem trimChars_idem (l : List Char) : trimChars (trimChars l) = trimChars l := by
  unfold trimChars
  set p := jsIsWhitespace
  set m := l.dropWhile p with hm_def
  have hm_idem : m.dropWhile p = m := dropWhile_dropWhile p l
  set n := (m.reverse.dropWhile p).reverse with hn_def
  have hnrev : n.reverse = m.reverse.dropWhile p := by
    rw [hn_def, List.reverse_reverse]
  have hpre : n <+: m := by
    rw [← List.reverse_suffix, hnrev]
    exact List.dropWhile_suffix p
  have hn1 : n.dropWhile p = n := dropWhile_eq_self_of_prefix p hm_idem hpre
  have hn2 : n.reverse.dropWhile p = n.reverse := by
    rw [hnrev, dropWhile_dropWhile]
  rw [hn1, hn2, List.reverse_reverse]

theorem jsTrim_idem (s : String) : jsTrim (jsTrim s) = jsTrim s := by
  show (⟨trimChars (String.data ⟨trimChars s.data⟩)⟩ : String) = ⟨trimChars s.data⟩
  rw [show String.data ⟨trimChars s.data⟩ = trimChars s.data from rfl, trimChars_idem]

theorem ne_empty_of_length_pos {s : String} (h : 0 < s.length) : s ≠ "" := by
  intro hcon
  rw [hcon] at h
  simp [String.length] at h

/-! ## Airspace matcher (src/server/src/airspaceMatcher.js)

Coordinates are rationals; a position in a ring is a pair (lon, lat),
matching the GeoJSON [longitude, latitude] order of the source. -/

/-- Number.EPSILON, the fallback divisor in ringContainsPoint. -/
def numberEpsilon : ℚ := 1 / 2 ^ 52

/-- Edge list of a ring exactly as the source loop pairs indices:
for each i the edge is (ring[i], ring[j]) with j = i - 1, and j = length - 1
when i = 0. -/
def ringEdges (ring : List (ℚ × ℚ)) : List ((ℚ × ℚ) × (ℚ × ℚ)) :=
  match ring.getLast? with
  | none => []
  | some last => ring.zip (last :: ring.dropLast)

/-- Crossing test of one edge in the ray cast; the (yj - yi) || Number.EPSILON
fallback of the source is the if on the divisor. -/
def edgeFlips (lon lat : ℚ) (pi pj : ℚ × ℚ) : Bool :=
  let xi := pi.1
  let yi := pi.2
  let xj := pj.1
  let yj := pj.2
  (decide (yi > lat) != decide (yj > lat)) &&
    decide (lon < (xj - xi) * (lat - yi) / (if yj - yi = 0 then numberEpsilon else yj - yi) + xi)

/-- Model of ringContainsPoint: standard ray cast, toggling on each crossing. -/
def ringContainsPoint (ring : List (ℚ × ℚ)) (lon lat : ℚ) : Bool :=
  (ringEdges ring).foldl (fun inside e => if edgeFlips lon lat e.1 e.2 then !inside else inside)
    false

/-- Model of polygonContainsPoint: the outer ring must have at least 3 points
and contain the point, and no hole ring with at least 3 points may contain it.
The Array.isArray guards of the source are vacuous in the typed model. -/
def polygonContainsPoint (polygonCoordinates : List (List (ℚ × ℚ))) (lon lat : ℚ) : Bool :=
  match polygonCoordinates with
  | [] => false
  | outerRing :: holes =>
    if outerRing.length < 3 then false
    else if !ringContainsPoint outerRing lon lat then false
    else !(holes.any fun holeRing =>
      decide (3 ≤ holeRing.length) && ringContainsPoint holeRing lon lat)

/-- GeoJSON geometry shapes the loader can meet.  A GeometryCollection keeps
its sub-geometries in a geometries field and has no coordinates field. -/
inductive Geometry where
  | polygon (coordinates : List (List (ℚ × ℚ)))
  | multiPolygon (coordinates : List (List (List (ℚ × ℚ))))
  | geometryCollection (geometries : List Geometry)

/-- Model of geometryContainsPoint: the source dispatches only on the Polygon
and MultiPolygon type tags and returns false for anything else. -/
def geometryContainsPoint (geometry : Geometry) (lon lat : ℚ) : Bool :=
  match geometry with
  | .polygon coordinates => polygonContainsPoint coordinates lon lat
  | .multiPolygon coordinates => coordinates.any fun poly => polygonContainsPoint poly lon lat
  | .geometryCollection _ => false

/-- Leaf (lon, lat) pairs reached by the walk of computeGeometryBbox over
geometry.coordinates, in visit order.  A GeometryCollection has no
coordinates field, so the walk visits nothing. -/
def geometryCoordinatePoints (geometry : Geometry) : List (ℚ × ℚ) :=
  match geometry with
  | .polygon coordinates => coordinates.flatten
  | .multiPolygon coordinates => (coordinates.map List.flatten).flatten
  | .geometryCollection _ => []

/-- Bounding box west/south/east/north, as in computeGeometryBbox. -/
structure Bbox where
  west : ℚ
  south : ℚ
  east : ℚ
  north : ℚ
deriving DecidableEq

/-- Model of computeGeometryBbox: fold min/max over every visited coordinate
pair; none when no point was seen.  The Number.isFinite guard is vacuous for
rationals. -/
def computeGeometryBbox (geometry : Geometry) : Option Bbox :=
  match geometryCoordinatePoints geometry with
  | [] => none
  | p :: ps =>
    some (ps.foldl
      (fun bb q => ⟨min bb.west q.1, min bb.south q.2, max bb.east q.1, max bb.north q.2⟩)
      ⟨p.1, p.2, p.1, p.2⟩)

/-- Model of bboxContainsPoint for a present box; the null guard of the source
never fires for retained features, whose bbox is always present. -/
def bboxContainsPoint (bbox : Bbox) (lon lat : ℚ) : Bool :=
  decide (bbox.west ≤ lon) && decide (lon ≤ bbox.east) &&
    decide (bbox.south ≤ lat) && decide (lat ≤ bbox.north)

/-- Duck-typed JSON value as seen by featureAirspaceName: either a string or
something else (number, object, ...). -/
inductive JVal where
  | str (s : String)
  | other
deriving DecidableEq

/-- Properties consulted by featureAirspaceName, in candidate order.  The
source property named prefix is modelled by the field prefixKey. -/
structure FeatureProps where
  id : Option JVal
  icao : Option JVal
  ident : Option JVal
  name : Option JVal
  label : Option JVal
  callsign : Option JVal
  prefixKey : Option JVal
  sector : Option JVal
  sector_name : Option JVal

/-- Raw GeoJSON feature as the loader sees it. -/
structure RawFeature where
  id : Option JVal
  properties : FeatureProps
  geometry : Option Geometry

/-- Shared candidate test of featureAirspaceName: a string value whose trim is
non-empty yields its trim. -/
def jvalCandidate (v : Option JVal) : Option String :=
  match v with
  | some (.str s) =>
    let t := jsTrim s
    if 0 < t.length then some t else none
  | _ => none

/-- Model of featureAirspaceName: the feature id wins if it is a non-blank
string, else the first non-blank string among the property candidates. -/
def featureAirspaceName (feature : RawFeature) : Option String :=
  match jvalCandidate feature.id with
  | some s => some s
  | none =>
    [feature.properties.id, feature.properties.icao, feature.properties.ident,
      feature.properties.name, feature.properties.label, feature.properties.callsign,
      feature.properties.prefixKey, feature.properties.sector,
      feature.properties.sector_name].findSome? jvalCandidate

/-- Feature retained by AirspaceMatcher.load: label, geometry and bbox all
present. -/
structure Feature where
  airspace : String
  geometry : Geometry
  bbox : Bbox

/-- Per-feature extraction step of AirspaceMatcher.load: null when the label,
the geometry or the bounding box is missing. -/
def extractFeature (feature : RawFeature) : Option Feature :=
  match featureAirspaceName feature, feature.geometry with
  | some airspace, some geometry =>
    match computeGeometryBbox geometry with
    | some bbox => some ⟨airspace, geometry, bbox⟩
    | none => none
  | _, _ => none

/-- Feature set built by AirspaceMatcher.load from a fetched collection. -/
def loadFeatures (features : List RawFeature) : List Feature :=
  features.filterMap extractFeature

/-- Model of AirspaceMatcher.lookup: first feature passing the bbox cheap
reject and the geometry test wins.  The Number.isFinite input guard is
vacuous for rational inputs. -/
def lookup (features : List Feature) (lat lon : ℚ) : Option String :=
  match features with
  | [] => none
  | f :: rest =>
    if bboxContainsPoint f.bbox lon lat && geometryContainsPoint f.geometry lon lat then
      some f.airspace
    else lookup rest lat lon

/-! ## Time-series store (src/server/src/db.js, first copy)

The snapshots table is a list of rows; the events table keeps only the
columns the modelled operations read (start_ts, end_ts); the atc_snapshots
table keeps the columns the modelled reads select. -/

/-- Row of the snapshots table.  Columns ts, callsign, lat, lon are NOT NULL;
the rest are nullable. -/
structure SnapRow where
  ts : Int
  callsign : String
  cid : Option Int
  lat : ℚ
  lon : ℚ
  altitude : Option Int
  groundspeed : Option Int
  heading : Option Int
  airspace : Option String
  departure : Option String
  destination : Option String
deriving DecidableEq

/-- Row of the events table, restricted to the columns read by pruneOld. -/
structure EventRow where
  start_ts : Option Int
  end_ts : Option Int
deriving DecidableEq

/-- Row of the atc_snapshots table as selected by getAtcSnapshotsAtTimestamps
(ts, callsign, frequency, facility, lat, lon). -/
structure AtcRow where
  ts : Int
  callsign : String
  frequency : Option String
  facility : Option Int
  lat : Option ℚ
  lon : Option ℚ
deriving DecidableEq

/-- Database state: the three tables the modelled operations touch. -/
structure Store where
  snapshots : List SnapRow
  atcSnapshots : List AtcRow
  events : List EventRow
deriving DecidableEq

/-- Pilot row as handed to insertSnapshots.  Fields bound without a null
fallback in the source (callsign, latitude, longitude) are Option here: a
missing value makes the INSERT throw (NOT NULL / missing binding). -/
structure PilotInput where
  callsign : Option String
  cid : Option Int
  latitude : Option ℚ
  longitude : Option ℚ
  altitude : Option Int
  groundspeed : Option Int
  heading : Option Int
  airspace : Option String
  departure : Option String
  destination : Option String

/-- One stmt.run of the insertSnapshots prepared statement: fails when a
NOT NULL column has no value. -/
def pilotToRow (ts : Int) (p : PilotInput) : Option SnapRow :=
  match p.callsign, p.latitude, p.longitude with
  | some callsign, some lat, some lon =>
    some ⟨ts, callsign, p.cid, lat, lon, p.altitude, p.groundspeed, p.heading,
      p.airspace, p.departure, p.destination⟩
  | _, _, _ => none

/-- Body of the insertMany transaction: run the statement row by row; the
first failure aborts the whole transaction. -/
def insertLoop (ts : Int) (pilots : List PilotInput) : Option (List SnapRow) :=
  match pilots with
  | [] => some []
  | p :: rest =>
    match pilotToRow ts p with
    | some row => (insertLoop ts rest).map (row :: ·)
    | none => none

/-- Model of insertSnapshots: all rows are appended inside one transaction
and the row count is returned; a thrown statement rolls the transaction back,
leaving the store unchanged (none stands for the propagated exception). -/
def insertSnapshots (st : Store) (ts : Int) (pilots : List PilotInput) : Store × Option Nat :=
  match insertLoop ts pilots with
  | some rows => ({ st with snapshots := st.snapshots ++ rows }, some pilots.length)
  | none => (st, none)

/-- Number of snapshot rows stored under one timestamp. -/
def countAt (st : Store) (ts : Int) : Nat :=
  (st.snapshots.filter fun r => r.ts == ts).length

/-- Condition of the NOT EXISTS subquery of pruneOld for one event row. -/
def eventProtects (e : EventRow) (ts : Int) : Bool :=
  match e.start_ts, e.end_ts with
  | some s, some en => decide (s ≤ en) && decide (s ≤ ts) && decide (ts ≤ en)
  | _, _ => false

/-- Boolean form of the protected-range test of pruneOld. -/
def protectedTs (events : List EventRow) (ts : Int) : Bool :=
  events.any fun e => eventProtects e ts

/-- Propositional form of the protected-range test. -/
def ProtectedTs (events : List EventRow) (ts : Int) : Prop :=
  ∃ e ∈ events, ∃ s en : Int,
    e.start_ts = some s ∧ e.end_ts = some en ∧ s ≤ en ∧ s ≤ ts ∧ ts ≤ en

theorem protectedTs_iff (events : List EventRow) (ts : Int) :
    protectedTs events ts = true ↔ ProtectedTs events ts := by
  unfold protectedTs ProtectedTs
  rw [List.any_eq_true]
  constructor
  · rintro ⟨e, he, hp⟩
    refine ⟨e, he, ?_⟩
    unfold eventProtects at hp
    cases hs : e.start_ts with
    | none => rw [hs] at hp; simp at hp
    | some s =>
      cases hen : e.end_ts with
      | none => rw [hs, hen] at hp; simp at hp
      | some en =>
        rw [hs, hen] at hp
        simp only [Bool.and_eq_true, decide_eq_true_eq] at hp
        exact ⟨s, en, rfl, rfl, hp.1.1, hp.1.2, hp.2⟩
  · rintro ⟨e, he, s, en, hs, hen, h1, h2, h3⟩
    refine ⟨e, he, ?_⟩
    unfold eventProtects
    rw [hs, hen]
    simp [h1, h2, h3]

/-- Model of pruneOld: DELETE FROM snapshots WHERE ts < cutoff AND NOT EXISTS
(protecting event); returns the new store and the change count. -/
def pruneOld (st : Store) (cutoffTs : Int) : Store × Nat :=
  let kept := st.snapshots.filter fun r =>
    !(decide (r.ts < cutoffTs) && !protectedTs st.events r.ts)
  ({ st with snapshots := kept }, st.snapshots.length - kept.length)

/-- Filter list sanitisation shared by the clause builders: keep only strings
whose trim is non-empty. -/
def sanitizeCodes (codes : List String) : List String :=
  codes.filter fun c => 0 < (jsTrim c).length

/-- Row test of buildAirspaceFilterClause: with a non-empty list the clause
is airspace IN (list); NULL airspace never matches an IN. -/
def rowPassesAirspaceFilter (airspaces : List String) (r : SnapRow) : Bool :=
  match sanitizeCodes airspaces with
  | [] => true
  | list =>
    match r.airspace with
    | some a => list.contains a
    | none => false

/-- Row test of buildAirportFilterClause: departure IN (list) OR destination
IN (list); NULL columns never match an IN. -/
def rowPassesAirportFilter (airports : List String) (r : SnapRow) : Bool :=
  match sanitizeCodes airports with
  | [] => true
  | list =>
    (match r.departure with
      | some d => list.contains d
      | none => false) ||
    (match r.destination with
      | some d => list.contains d
      | none => false)

/-- Row test of buildAltitudeFilterClause: each bound participates only when
present and non-negative; when at least one condition is active a NULL
altitude fails the clause. -/
def rowPassesAltitudeFilter (minAltitude maxAltitude : Option Int) (r : SnapRow) : Bool :=
  let conds : List (Int → Bool) :=
    (match minAltitude with
      | some m => if 0 ≤ m then [fun alt => decide (m ≤ alt)] else []
      | none => []) ++
    (match maxAltitude with
      | some m => if 0 ≤ m then [fun alt => decide (alt ≤ m)] else []
      | none => [])
  match conds with
  | [] => true
  | _ =>
    match r.altitude with
    | some alt => conds.all fun c => c alt
    | none => false

/-- Model of getSnapshotTimestampsInRange: SELECT DISTINCT ts ... WHERE ts
BETWEEN since AND until ORDER BY ts ASC.  Sorting algorithm is irrelevant to
the SQL semantics; insertion sort is used for its library lemmas. -/
def getSnapshotTimestampsInRange (st : Store) (sinceTs untilTs : Int) : List Int :=
  (((st.snapshots.map fun r => r.ts).filter fun t =>
      decide (sinceTs ≤ t) && decide (t ≤ untilTs)).dedup).insertionSort (· ≤ ·)

/-- Model of getSnapshotsAtTimestamps: empty timestamp list short-circuits to
[]; otherwise WHERE ts IN (timestamps) plus the three filter clauses.  The
ORDER BY ts ASC of the source only permutes rows across distinct timestamps
and is dropped: every consumer regroups rows by timestamp. -/
def getSnapshotsAtTimestamps (st : Store) (timestamps : List Int)
    (airspaces airports : List String) (minAltitude maxAltitude : Option Int) : List SnapRow :=
  if timestamps.isEmpty then []
  else st.snapshots.filter fun r =>
    timestamps.contains r.ts && rowPassesAirspaceFilter airspaces r &&
      rowPassesAirportFilter airports r && rowPassesAltitudeFilter minAltitude maxAltitude r

/-- Model of getAtcSnapshotsAtTimestamps (no filters). -/
def getAtcSnapshotsAtTimestamps (st : Store) (timestamps : List Int) : List AtcRow :=
  if timestamps.isEmpty then []
  else st.atcSnapshots.filter fun r => timestamps.contains r.ts

/-! ## /api/preload-snapshots handler (src/unnamed/part_003, lines 346-484)

Request parameters arrive already parsed to integers; the Number.isFinite
checks on since/until/step, which only reject NaN from parseInt, are vacuous
in the integer model.  The maxSourceAge <= 0, until < since, range-span and
bucket-count checks are modelled in source order. -/

/-- MAX_REPLAY_RANGE_SECONDS of the source (24 hours). -/
def maxReplayRangeSeconds : Int := 24 * 3600

/-- MAX_BUCKETS of the source. -/
def maxBuckets : Nat := 10000

/-- Bucket count computed by the handler once the earlier checks passed:
Math.floor((until - since) / step) + 1 with until >= since and step >= 1. -/
def bucketCountOf (since untilTs step : Int) : Nat :=
  (untilTs - since).toNat / step.toNat + 1

/-- Validation rejections of the handler, each echoing the parameters the
source includes in its JSON error body. -/
inductive PreloadError where
  | stepNotPositive (received : Int)
  | maxSourceAgeNotPositive (received : Int)
  | untilBeforeSince (since untilTs : Int)
  | rangeTooLarge (maxRangeSeconds replayRangeSeconds since untilTs : Int)
  | tooManyBuckets (maxBucketsAllowed requestedBuckets : Nat)
deriving DecidableEq

/-- Validation chain of the handler, in source order. -/
def validatePreload (since untilTs step maxSourceAge : Int) : Option PreloadError :=
  if step ≤ 0 then some (.stepNotPositive step)
  else if maxSourceAge ≤ 0 then some (.maxSourceAgeNotPositive maxSourceAge)
  else if untilTs < since then some (.untilBeforeSince since untilTs)
  else if maxReplayRangeSeconds < untilTs - since then
    some (.rangeTooLarge maxReplayRangeSeconds (untilTs - since) since untilTs)
  else if maxBuckets < bucketCountOf since untilTs step then
    some (.tooManyBuckets maxBuckets (bucketCountOf since untilTs step))
  else none

/-- Bucket-grid loop (for ts = since; ts <= until; ts += step), run on
explicit fuel; with positive step the fuel below is never exhausted before
the loop condition fails. -/
def bucketLoop (fuel : Nat) (ts untilTs step : Int) : List Int :=
  match fuel with
  | 0 => []
  | fuel + 1 => if ts ≤ untilTs then ts :: bucketLoop fuel (ts + step) untilTs step else []

/-- Bucket timestamps of the request grid. -/
def bucketTimestamps (since untilTs step : Int) : List Int :=
  bucketLoop ((untilTs - since).toNat + 1) since untilTs step

/-- Monotonic advancing pointer of the nearest-timestamp scan (the inner
while loop), run on explicit fuel; fuel avail.length - idx is exact. -/
def advanceIdxAux (fuel : Nat) (avail : List Int) (bucketTs : Int) (idx : Nat) : Nat :=
  match fuel with
  | 0 => idx
  | fuel + 1 =>
    if idx + 1 < avail.length ∧ avail.getD (idx + 1) 0 ≤ bucketTs then
      advanceIdxAux fuel avail bucketTs (idx + 1)
    else idx

/-- While-loop of the scan: advance while the next available timestamp is
still at or before the bucket. -/
def advanceIdx (avail : List Int) (bucketTs : Int) (idx : Nat) : Nat :=
  advanceIdxAux (avail.length - idx) avail bucketTs idx

/-- Candidate selection of the scan: left is avail[index], right (when it
exists) wins only when strictly closer to the bucket. -/
def nearestAt (avail : List Int) (bucketTs : Int) (idx : Nat) : Int :=
  let left := avail.getD idx 0
  if idx + 1 < avail.length then
    let right := avail.getD (idx + 1) 0
    if |right - bucketTs| < |left - bucketTs| then right else left
  else left

/-- Per-bucket body of the scan over the sorted bucket list, threading the
advancing pointer; a bucket is assigned its nearest available timestamp only
within maxSourceAge. -/
def resolveScan (avail : List Int) (maxSourceAge : Int) :
    List Int → Nat → List (Int × Option Int)
  | [], _ => []
  | bucketTs :: rest, idx =>
    let j := advanceIdx avail bucketTs idx
    let nearest := nearestAt avail bucketTs j
    (bucketTs, if |nearest - bucketTs| ≤ maxSourceAge then some nearest else none) ::
      resolveScan avail maxSourceAge rest j

/-- bucketToSourceTs of the handler as an association list over the bucket
grid: the scan runs only when some timestamp is available. -/
def resolveBuckets (avail : List Int) (buckets : List Int) (maxSourceAge : Int) :
    List (Int × Option Int) :=
  if avail.isEmpty then buckets.map fun b => (b, none)
  else resolveScan avail maxSourceAge buckets 0

/-- Lookup into the resolved association list: none both for an unassigned
bucket and for a timestamp that is not on the grid. -/
def sourceLookup (resolved : List (Int × Option Int)) (b : Int) : Option Int :=
  match resolved.lookup b with
  | some r => r
  | none => none

/-- Insertion-order deduplication, as Array.from(new Set(...)). -/
def jsSetDedupAux : List Int → List Int → List Int
  | [], _ => []
  | x :: xs, seen =>
    if seen.contains x then jsSetDedupAux xs seen else x :: jsSetDedupAux xs (x :: seen)

/-- Deduplicated source timestamps actually fetched. -/
def jsSetDedup (l : List Int) : List Int := jsSetDedupAux l []

/-- Pilot row as serialised per bucket: the ts field is stripped by the
redistribution map. -/
structure PilotOut where
  callsign : String
  cid : Option Int
  lat : ℚ
  lon : ℚ
  altitude : Option Int
  groundspeed : Option Int
  heading : Option Int
  airspace : Option String
  departure : Option String
  destination : Option String
deriving DecidableEq

/-- ATC row as serialised per bucket (ts stripped). -/
structure AtcOut where
  callsign : String
  frequency : Option String
  facility : Option Int
  lat : Option ℚ
  lon : Option ℚ
deriving DecidableEq

/-- Redistribution map ({ ts, ...row }) => row for pilot rows. -/
def stripSnapRowTs (r : SnapRow) : PilotOut :=
  ⟨r.callsign, r.cid, r.lat, r.lon, r.altitude, r.groundspeed, r.heading,
    r.airspace, r.departure, r.destination⟩

/-- Redistribution map ({ ts, ...row }) => row for ATC rows. -/
def stripAtcRowTs (r : AtcRow) : AtcOut :=
  ⟨r.callsign, r.frequency, r.facility, r.lat, r.lon⟩

/-- Successful response body of the handler, restricted to the fields with
content (the request echo fields are omitted).  rowsByTs and atcRowsByTs are
total functions; off-grid keys give [], where the JS object has no key. -/
structure PreloadResponse where
  timestamps : List Int
  sourceTsByBucket : Int → Option Int
  rowsByTs : Int → List PilotOut
  atcRowsByTs : Int → List AtcOut

/-- Distinct available timestamps fetched by the handler for the widened
range [since - window, until + window]. -/
def availOf (st : Store) (since untilTs window : Int) : List Int :=
  getSnapshotTimestampsInRange st (since - window) (untilTs + window)

/-- Resolved bucket association list of one request. -/
def resolvedOf (st : Store) (since untilTs step window maxSourceAge : Int) :
    List (Int × Option Int) :=
  resolveBuckets (availOf st since untilTs window) (bucketTimestamps since untilTs step)
    maxSourceAge

/-- Deduplicated source timestamps actually fetched by one request. -/
def sourceTsOf (st : Store) (since untilTs step window maxSourceAge : Int) : List Int :=
  jsSetDedup ((resolvedOf st since untilTs step window maxSourceAge).filterMap fun p => p.2)

/-- Single deduplicated pilot fetch of one request. -/
def pilotRowsOf (st : Store) (since untilTs step window maxSourceAge : Int)
    (airspaces airports : List String) (minAltitude maxAltitude : Option Int) : List SnapRow :=
  getSnapshotsAtTimestamps st (sourceTsOf st since untilTs step window maxSourceAge)
    airspaces airports minAltitude maxAltitude

/-- Single deduplicated ATC fetch of one request. -/
def atcRowsOf (st : Store) (since untilTs step window maxSourceAge : Int) : List AtcRow :=
  getAtcSnapshotsAtTimestamps st (sourceTsOf st since untilTs step window maxSourceAge)

/-- Non-error branch of the handler: resolve buckets, deduplicate the source
timestamps, fetch once per source timestamp, group by source timestamp and
redistribute to the buckets.  Grouping a fetch by ts equals filtering the
fetch by that ts, so the pilotBySourceTs/atcBySourceTs maps appear as
filters. -/
def preloadCompute (st : Store) (since untilTs step window maxSourceAge : Int)
    (airspaces airports : List String) (minAltitude maxAltitude : Option Int) :
    PreloadResponse :=
  { timestamps := bucketTimestamps since untilTs step
    sourceTsByBucket := fun b =>
      sourceLookup (resolvedOf st since untilTs step window maxSourceAge) b
    rowsByTs := fun b =>
      match sourceLookup (resolvedOf st since untilTs step window maxSourceAge) b with
      | some s =>
        ((pilotRowsOf st since untilTs step window maxSourceAge airspaces airports
            minAltitude maxAltitude).filter fun r => r.ts == s).map stripSnapRowTs
      | none => []
    atcRowsByTs := fun b =>
      match sourceLookup (resolvedOf st since untilTs step window maxSourceAge) b with
      | some s =>
        ((atcRowsOf st since untilTs step window maxSourceAge).filter fun r =>
          r.ts == s).map stripAtcRowTs
      | none => [] }

/-- Model of the /api/preload-snapshots handler: validate, then compute; a
validation failure is returned before any store read. -/
def preloadSnapshots (st : Store) (since untilTs step window maxSourceAge : Int)
    (airspaces airports : List String) (minAltitude maxAltitude : Option Int) :
    Except PreloadError PreloadResponse :=
  match validatePreload since untilTs step maxSourceAge with
  | some e => .error e
  | none =>
    .ok (preloadCompute st since untilTs step window maxSourceAge airspaces airports
      minAltitude maxAltitude)

/-! ## Helper lemmas about the nearest-timestamp scan -/

theorem abs_sub_eq_of_le {x b : Int} (h : x ≤ b) : |x - b| = b - x := by
  rw [abs_sub_comm]
  exact abs_of_nonneg (by omega)

theorem abs_sub_eq_of_ge {x b : Int} (h : b ≤ x) : |x - b| = x - b :=
  abs_of_nonneg (by omega)

theorem sorted_getD_le {l : List Int} (hs : l.Sorted (· ≤ ·)) {i j : Nat}
    (hij : i ≤ j) (hj : j < l.length) : l.getD i 0 ≤ l.getD j 0 := by
  rcases Nat.lt_or_ge i j with h | h
  · have hi : i < l.length := Nat.lt_trans h hj
    have := List.pairwise_iff_get.mp hs ⟨i, hi⟩ ⟨j, hj⟩ h
    rw [List.getD_eq_getElem l 0 hi, List.getD_eq_getElem l 0 hj]
    simpa using this
  · have : i = j := Nat.le_antisymm hij h
    rw [this]

theorem getD_mem {l : List Int} {i : Nat} (h : i < l.length) : l.getD i 0 ∈ l := by
  rw [List.getD_eq_getElem l 0 h]
  exact List.getElem_mem h

theorem advanceIdxAux_lt {avail : List Int} {b : Int} :
    ∀ fuel idx, idx < avail.length → advanceIdxAux fuel avail b idx < avail.length := by
  intro fuel
  induction fuel with
  | zero => intro idx h; exact h
  | succ fuel ih =>
    intro idx h
    unfold advanceIdxAux
    split
    · next hc => exact ih (idx + 1) hc.1
    · exact h

theorem advanceIdxAux_inv {avail : List Int} {b : Int} :
    ∀ fuel idx, (idx = 0 ∨ avail.getD idx 0 ≤ b) →
      (advanceIdxAux fuel avail b idx = 0 ∨
        avail.getD (advanceIdxAux fuel avail b idx) 0 ≤ b) := by
  intro fuel
  induction fuel with
  | zero => intro idx h; exact h
  | succ fuel ih =>
    intro idx h
    unfold advanceIdxAux
    split
    · next hc => exact ih (idx + 1) (Or.inr hc.2)
    · exact h

theorem advanceIdxAux_next {avail : List Int} {b : Int} :
    ∀ fuel idx, avail.length - idx ≤ fuel →
      advanceIdxAux fuel avail b idx + 1 < avail.length →
      b < avail.getD (advanceIdxAux fuel avail b idx + 1) 0 := by
  intro fuel
  induction fuel with
  | zero =>
    intro idx hfuel hlt
    unfold advanceIdxAux at hlt
    omega
  | succ fuel ih =>
    intro idx hfuel hlt
    unfold advanceIdxAux at hlt ⊢
    split
    · next hc =>
      rw [if_pos hc] at hlt
      exact ih (idx + 1) (by omega) hlt
    · next hc =>
      rw [if_neg hc] at hlt
      push_neg at hc
      have := hc hlt
      omega

theorem advanceIdx_lt {avail : List Int} {b : Int} {idx : Nat} (h : idx < avail.length) :
    advanceIdx avail b idx < avail.length :=
  advanceIdxAux_lt _ idx h

theorem advanceIdx_inv {avail : List Int} {b : Int} {idx : Nat}
    (h : idx = 0 ∨ avail.getD idx 0 ≤ b) :
    advanceIdx avail b idx = 0 ∨ avail.getD (advanceIdx avail b idx) 0 ≤ b :=
  advanceIdxAux_inv _ idx h

theorem advanceIdx_next {avail : List Int} {b : Int} {idx : Nat}
    (h : advanceIdx avail b idx + 1 < avail.length) :
    b < avail.getD (advanceIdx avail b idx + 1) 0 :=
  advanceIdxAux_next _ idx (Nat.le_refl _) h

theorem nearestAt_spec {avail : List Int} (hs : avail.Sorted (· ≤ ·)) {b : Int} {idx : Nat}
    (hlt : idx < avail.length)
    (hinv : idx = 0 ∨ avail.getD idx 0 ≤ b)
    (hnext : idx + 1 < avail.length → b < avail.getD (idx + 1) 0) :
    nearestAt avail b idx ∈ avail ∧
      ∀ a ∈ avail, |nearestAt avail b idx - b| ≤ |a - b| ∧
        (|a - b| = |nearestAt avail b idx - b| → nearestAt avail b idx ≤ a) := by
  have key : ∀ a ∈ avail, (a ≤ avail.getD idx 0 ∧ (avail.getD idx 0 ≤ b ∨ a = avail.getD idx 0)) ∨
      (idx + 1 < avail.length ∧ avail.getD (idx + 1) 0 ≤ a) := by
    intro a ha
    obtain ⟨⟨k, hk⟩, hget⟩ := List.mem_iff_get.mp ha
    have hka : avail.getD k 0 = a := by
      rw [List.getD_eq_getElem avail 0 hk]
      simpa using hget
    rcases Nat.lt_or_ge k (idx + 1) with hkle | hkge
    · left
      have h1 : a ≤ avail.getD idx 0 := by
        rw [← hka]; exact sorted_getD_le hs (by omega) hlt
      refine ⟨h1, ?_⟩
      rcases hinv with h0 | hle
      · right
        have : k = 0 := by omega
        rw [← hka, this, h0]
      · exact Or.inl hle
    · right
      have hk1 : idx + 1 < avail.length := by omega
      refine ⟨hk1, ?_⟩
      rw [← hka]
      exact sorted_getD_le hs hkge hk
  unfold nearestAt
  by_cases h1 : idx + 1 < avail.length
  · rw [if_pos h1]
    have hbr : b < avail.getD (idx + 1) 0 := hnext h1
    set left := avail.getD idx 0 with hleft_def
    set right := avail.getD (idx + 1) 0 with hright_def
    have hlr : left ≤ right := sorted_getD_le hs (by omega) h1
    by_cases h2 : |right - b| < |left - b|
    · rw [if_pos h2]
      refine ⟨getD_mem h1, ?_⟩
      intro a ha
      rcases key a ha with ⟨hale, hcase⟩ | ⟨_, hria⟩
      · rcases hcase with hlb | haeq
        · have e1 : |a - b| = b - a := abs_sub_eq_of_le (by omega)
          have e2 : |left - b| = b - left := abs_sub_eq_of_le hlb
          have e3 : |right - b| = right - b := abs_sub_eq_of_ge (by omega)
          constructor
          · omega
          · intro he; omega
        · rw [haeq]
          constructor
          · omega
          · intro he; omega
      · have e3 : |right - b| = right - b := abs_sub_eq_of_ge (by omega)
        have e4 : |a - b| = a - b := abs_sub_eq_of_ge (by omega)
        constructor
        · omega
        · intro he; omega
    · rw [if_neg h2]
      refine ⟨getD_mem hlt, ?_⟩
      intro a ha
      rcases key a ha with ⟨hale, hcase⟩ | ⟨_, hria⟩
      · rcases hcase with hlb | haeq
        · have e1 : |a - b| = b - a := abs_sub_eq_of_le (by omega)
          have e2 : |left - b| = b - left := abs_sub_eq_of_le hlb
          constructor
          · omega
          · intro he; omega
        · rw [haeq]
          exact ⟨le_refl _, fun _ => le_refl _⟩
      · have e3 : |right - b| = right - b := abs_sub_eq_of_ge (by omega)
        have e4 : |a - b| = a - b := abs_sub_eq_of_ge (by omega)
        have hlea : left ≤ a := by omega
        constructor
        · omega
        · intro he; omega
  · rw [if_neg h1]
    refine ⟨getD_mem hlt, ?_⟩
    intro a ha
    set left := avail.getD idx 0 with hleft_def
    rcases key a ha with ⟨hale, hcase⟩ | ⟨hk1, _⟩
    · rcases hcase with hlb | haeq
      · have e1 : |a - b| = b - a := abs_sub_eq_of_le (by omega)
        have e2 : |left - b| = b - left := abs_sub_eq_of_le hlb
        constructor
        · omega
        · intro he; omega
      · rw [haeq]
        exact ⟨le_refl _, fun _ => le_refl _⟩
    · omega

/-- Specification payload for one resolved bucket pair. -/
def ResolvedPairSpec (avail : List Int) (maxSourceAge : Int) (p : Int × Option Int) : Prop :=
  (∀ src, p.2 = some src →
    src ∈ avail ∧ |src - p.1| ≤ maxSourceAge ∧
      ∀ a ∈ avail, |src - p.1| ≤ |a - p.1| ∧ (|a - p.1| = |src - p.1| → src ≤ a)) ∧
  (p.2 = none → ∀ a ∈ avail, maxSourceAge < |a - p.1|)

theorem resolveScan_spec {avail : List Int} (hs : avail.Sorted (· ≤ ·)) {maxSourceAge : Int} :
    ∀ (buckets : List Int) (idx : Nat), buckets.Sorted (· ≤ ·) →
      idx < avail.length →
      (idx = 0 ∨ ∀ b ∈ buckets, avail.getD idx 0 ≤ b) →
      ∀ p ∈ resolveScan avail maxSourceAge buckets idx,
        ResolvedPairSpec avail maxSourceAge p := by
  intro buckets
  induction buckets with
  | nil => intro idx _ _ _ p hp; simp [resolveScan] at hp
  | cons b rest ih =>
    intro idx hsort hidx hinv p hp
    have hrest_sorted : rest.Sorted (· ≤ ·) := hsort.of_cons
    have hble : ∀ x ∈ rest, b ≤ x := List.rel_of_sorted_cons hsort
    have hinv_b : idx = 0 ∨ avail.getD idx 0 ≤ b := by
      rcases hinv with h | h
      · exact Or.inl h
      · exact Or.inr (h b (List.mem_cons_self b rest))
    have hj_lt : advanceIdx avail b idx < avail.length := advanceIdx_lt hidx
    have hj_inv : advanceIdx avail b idx = 0 ∨ avail.getD (advanceIdx avail b idx) 0 ≤ b :=
      advanceIdx_inv hinv_b
    have hj_next : advanceIdx avail b idx + 1 < avail.length →
        b < avail.getD (advanceIdx avail b idx + 1) 0 :=
      fun h => advanceIdx_next h
    have hnspec := nearestAt_spec hs hj_lt hj_inv hj_next
    rw [resolveScan] at hp
    rcases List.mem_cons.mp hp with hhead | htail
    · subst hhead
      dsimp only [ResolvedPairSpec]
      constructor
      · intro src hsrc
        split at hsrc
        · next hage =>
          have hne : nearestAt avail b (advanceIdx avail b idx) = src := by
            injection hsrc
          subst hne
          exact ⟨hnspec.1, hage, hnspec.2⟩
        · exact absurd hsrc (by simp)
      · intro hnone a ha
        split at hnone
        · exact absurd hnone (by simp)
        · next hage =>
          have := (hnspec.2 a ha).1
          omega
    · refine ih (advanceIdx avail b idx) hrest_sorted hj_lt ?_ p htail
      rcases hj_inv with h0 | hle
      · exact Or.inl h0
      · exact Or.inr fun x hx => le_trans hle (hble x hx)

theorem resolveBuckets_fst (avail buckets : List Int) (maxSourceAge : Int) :
    (resolveBuckets avail buckets maxSourceAge).map Prod.fst = buckets := by
  unfold resolveBuckets
  split
  · simp [List.map_map, Function.comp_def]
  · suffices h : ∀ (bs : List Int) (idx : Nat),
        (resolveScan avail maxSourceAge bs idx).map Prod.fst = bs by
      exact h buckets 0
    intro bs
    induction bs with
    | nil => intro idx; rfl
    | cons b rest ih => intro idx; simp [resolveScan, ih]

theorem resolveBuckets_spec {avail buckets : List Int} {maxSourceAge : Int}
    (hs : avail.Sorted (· ≤ ·)) (hb : buckets.Sorted (· ≤ ·)) :
    ∀ p ∈ resolveBuckets avail buckets maxSourceAge,
      ResolvedPairSpec avail maxSourceAge p := by
  intro p hp
  unfold resolveBuckets at hp
  split at hp
  · next hempty =>
    obtain ⟨b, _, rfl⟩ := List.mem_map.mp hp
    constructor
    · intro src hsrc; exact absurd hsrc (by simp)
    · intro _ a ha
      rw [List.isEmpty_iff.mp hempty] at ha
      simp at ha
  · next hempty =>
    have hpos : 0 < avail.length := by
      cases avail with
      | nil => simp at hempty
      | cons x xs => simp
    exact resolveScan_spec hs buckets 0 hb hpos (Or.inl rfl) p hp

theorem getSnapshotTimestampsInRange_sorted (st : Store) (sinceTs untilTs : Int) :
    (getSnapshotTimestampsInRange st sinceTs untilTs).Sorted (· ≤ ·) :=
  List.sorted_insertionSort (· ≤ ·) _

theorem availOf_sorted (st : Store) (since untilTs window : Int) :
    (availOf st since untilTs window).Sorted (· ≤ ·) :=
  getSnapshotTimestampsInRange_sorted st _ _

theorem bucketLoop_sorted_lt {step : Int} (hstep : 0 < step) :
    ∀ (fuel : Nat) (ts untilTs : Int), (bucketLoop fuel ts untilTs step).Sorted (· < ·) := by
  intro fuel
  induction fuel with
  | zero => intro ts untilTs; exact List.sorted_nil
  | succ fuel ih =>
    intro ts untilTs
    unfold bucketLoop
    split
    · refine List.sorted_cons.mpr ⟨?_, ih (ts + step) untilTs⟩
      intro x hx
      have hge : ∀ (f : Nat) (t u : Int), ∀ y ∈ bucketLoop f t u step, t ≤ y := by
        intro f
        induction f with
        | zero => intro t u y hy; simp [bucketLoop] at hy
        | succ f ihf =>
          intro t u y hy
          unfold bucketLoop at hy
          split at hy
          · rcases List.mem_cons.mp hy with rfl | hy'
            · exact le_refl _
            · have := ihf (t + step) u y hy'
              omega
          · simp at hy
      have := hge fuel (ts + step) untilTs x hx
      omega
    · exact List.sorted_nil

theorem bucketTimestamps_sorted_lt {since untilTs step : Int} (hstep : 0 < step) :
    (bucketTimestamps since untilTs step).Sorted (· < ·) :=
  bucketLoop_sorted_lt hstep _ since untilTs

theorem bucketTimestamps_sorted_le {since untilTs step : Int} (hstep : 0 < step) :
    (bucketTimestamps since untilTs step).Sorted (· ≤ ·) :=
  (bucketTimestamps_sorted_lt hstep).imp le_of_lt

theorem bucketTimestamps_nodup {since untilTs step : Int} (hstep : 0 < step) :
    (bucketTimestamps since untilTs step).Nodup :=
  (bucketTimestamps_sorted_lt hstep).nodup

theorem lookup_mem {l : List (Int × Option Int)} {b : Int} {r : Option Int}
    (h : l.lookup b = some r) : (b, r) ∈ l := by
  induction l with
  | nil => simp [List.lookup] at h
  | cons p rest ih =>
    obtain ⟨pk, pv⟩ := p
    rw [List.lookup_cons] at h
    split at h
    · next heq =>
      have hb : b = pk := by simpa using heq
      have hr : pv = r := by simpa using h
      rw [hb, ← hr]
      exact List.mem_cons_self _ _
    · exact List.mem_cons_of_mem _ (ih h)

theorem lookup_of_mem_nodup {l : List (Int × Option Int)} {b : Int} {r : Option Int}
    (hnd : (l.map Prod.fst).Nodup) (hmem : (b, r) ∈ l) : l.lookup b = some r := by
  induction l with
  | nil => simp at hmem
  | cons p rest ih =>
    obtain ⟨pk, pv⟩ := p
    rw [List.map_cons, List.nodup_cons] at hnd
    rcases List.mem_cons.mp hmem with heq | htail
    · have hb : b = pk := congrArg Prod.fst heq
      have hr : r = pv := congrArg Prod.snd heq
      rw [hb, hr]
      simp [List.lookup_cons]
    · rw [List.lookup_cons]
      split
      · next heq =>
        exfalso
        have hb : b = pk := by simpa using heq
        apply hnd.1
        rw [← hb]
        exact List.mem_map.mpr ⟨(b, r), htail, rfl⟩
      · exact ih hnd.2 htail

theorem validatePreload_none_step {since untilTs step maxSourceAge : Int}
    (h : validatePreload since untilTs step maxSourceAge = none) : 0 < step := by
  unfold validatePreload at h
  split_ifs at h
  omega

theorem sourceLookup_eq_some_iff {resolved : List (Int × Option Int)} {b : Int} {s : Int} :
    sourceLookup resolved b = some s ↔ resolved.lookup b = some (some s) := by
  unfold sourceLookup
  constructor
  · intro h
    split at h
    · next r heq =>
      rw [heq, h]
    · exact absurd h (by simp)
  · intro h
    rw [h]

theorem preloadSnapshots_ok {st : Store} {since untilTs step window maxSourceAge : Int}
    {airspaces airports : List String} {minAltitude maxAltitude : Option Int}
    (hvalid : validatePreload since untilTs step maxSourceAge = none) :
    preloadSnapshots st since untilTs step window maxSourceAge airspaces airports
        minAltitude maxAltitude =
      .ok (preloadCompute st since untilTs step window maxSourceAge airspaces airports
        minAltitude maxAltitude) := by
  unfold preloadSnapshots
  rw [hvalid]

theorem preloadSnapshots_ok_inv {st : Store} {since untilTs step window maxSourceAge : Int}
    {airspaces airports : List String} {minAltitude maxAltitude : Option Int}
    {resp : PreloadResponse}
    (h : preloadSnapshots st since untilTs step window maxSourceAge airspaces airports
        minAltitude maxAltitude = .ok resp) :
    validatePreload since untilTs step maxSourceAge = none ∧
      resp = preloadCompute st since untilTs step window maxSourceAge airspaces airports
        minAltitude maxAltitude := by
  unfold preloadSnapshots at h
  cases hv : validatePreload since untilTs step maxSourceAge with
  | some e => rw [hv] at h; exact absurd h (by simp)
  | none =>
    rw [hv] at h
    have := (Except.ok.injEq _ _).mp h
    exact ⟨rfl, this.symm⟩

/-- Entry of the resolved association list behind a successful
sourceTsByBucket answer. -/
theorem preload_sourceTsByBucket_mem {st : Store}
    {since untilTs step window maxSourceAge : Int} {airspaces airports : List String}
    {minAltitude maxAltitude : Option Int} {b s : Int}
    (h : (preloadCompute st since untilTs step window maxSourceAge airspaces airports
        minAltitude maxAltitude).sourceTsByBucket b = some s) :
    (b, some s) ∈ resolvedOf st since untilTs step window maxSourceAge := by
  have hl : sourceLookup (resolvedOf st since untilTs step window maxSourceAge) b = some s := h
  exact lookup_mem (sourceLookup_eq_some_iff.mp hl)

/-- Every grid bucket has an entry in the resolved association list, found by
lookup. -/
theorem preload_bucket_lookup {st : Store} {since untilTs step window maxSourceAge : Int}
    (hstep : 0 < step) {b : Int} (hb : b ∈ bucketTimestamps since untilTs step) :
    ∃ r, (resolvedOf st since untilTs step window maxSourceAge).lookup b = some r ∧
      (b, r) ∈ resolvedOf st since untilTs step window maxSourceAge := by
  have hfst := resolveBuckets_fst (availOf st since untilTs window)
    (bucketTimestamps since untilTs step) maxSourceAge
  have hb' : b ∈ (resolvedOf st since untilTs step window maxSourceAge).map Prod.fst := by
    rw [show (resolvedOf st since untilTs step window maxSourceAge).map Prod.fst =
      bucketTimestamps since untilTs step from hfst]
    exact hb
  obtain ⟨p, hpmem, hpfst⟩ := List.mem_map.mp hb'
  obtain ⟨pk, pv⟩ := p
  have hpk : pk = b := hpfst
  subst hpk
  have hnd : ((resolvedOf st since untilTs step window maxSourceAge).map Prod.fst).Nodup := by
    rw [show (resolvedOf st since untilTs step window maxSourceAge).map Prod.fst =
      bucketTimestamps since untilTs step from hfst]
    exact bucketTimestamps_nodup hstep
  exact ⟨pv, lookup_of_mem_nodup hnd hpmem, hpmem⟩

/-- Specification transfer: every entry of the resolved list of a request
with a positive step satisfies the nearest-timestamp specification. -/
theorem resolvedOf_spec {st : Store} {since untilTs step window maxSourceAge : Int}
    (hstep : 0 < step) :
    ∀ p ∈ resolvedOf st since untilTs step window maxSourceAge,
      ResolvedPairSpec (availOf st since untilTs window) maxSourceAge p :=
  resolveBuckets_spec (availOf_sorted st since untilTs window)
    (bucketTimestamps_sorted_le hstep)

theorem preloadCompute_rowsByTs_none {st : Store}
    {since untilTs step window maxSourceAge : Int} {airspaces airports : List String}
    {minAltitude maxAltitude : Option Int} {b : Int}
    (h : sourceLookup (resolvedOf st since untilTs step window maxSourceAge) b = none) :
    (preloadCompute st since untilTs step window maxSourceAge airspaces airports
      minAltitude maxAltitude).rowsByTs b = [] := by
  show (match sourceLookup (resolvedOf st since untilTs step window maxSourceAge) b with
    | some s =>
      ((pilotRowsOf st since untilTs step window maxSourceAge airspaces airports
          minAltitude maxAltitude).filter fun r : SnapRow => r.ts == s).map stripSnapRowTs
    | none => []) = []
  rw [h]

theorem preloadCompute_rowsByTs_some {st : Store}
    {since untilTs step window maxSourceAge : Int} {airspaces airports : List String}
    {minAltitude maxAltitude : Option Int} {b s : Int}
    (h : sourceLookup (resolvedOf st since untilTs step window maxSourceAge) b = some s) :
    (preloadCompute st since untilTs step window maxSourceAge airspaces airports
        minAltitude maxAltitude).rowsByTs b =
      ((pilotRowsOf st since untilTs step window maxSourceAge airspaces airports
        minAltitude maxAltitude).filter fun r => r.ts == s).map stripSnapRowTs := by
  show (match sourceLookup (resolvedOf st since untilTs step window maxSourceAge) b with
    | some s =>
      ((pilotRowsOf st since untilTs step window maxSourceAge airspaces airports
          minAltitude maxAltitude).filter fun r : SnapRow => r.ts == s).map stripSnapRowTs
    | none => []) = _
  rw [h]

theorem preloadCompute_atcRowsByTs_some {st : Store}
    {since untilTs step window maxSourceAge : Int} {airspaces airports : List String}
    {minAltitude maxAltitude : Option Int} {b s : Int}
    (h : sourceLookup (resolvedOf st since untilTs step window maxSourceAge) b = some s) :
    (preloadCompute st since untilTs step window maxSourceAge airspaces airports
        minAltitude maxAltitude).atcRowsByTs b =
      ((atcRowsOf st since untilTs step window maxSourceAge).filter fun r =>
        r.ts == s).map stripAtcRowTs := by
  show (match sourceLookup (resolvedOf st since untilTs step window maxSourceAge) b with
    | some s =>
      ((atcRowsOf st since untilTs step window maxSourceAge).filter fun r : AtcRow =>
        r.ts == s).map stripAtcRowTs
    | none => []) = _
  rw [h]

/-! ## Claim theorems -/

/-- Claim C2: for every bucket on the request grid, an assigned source
timestamp is within maxSourceAge of the bucket and no available timestamp in
the fetched range [since - window, until + window] is strictly closer; and
when no available timestamp is within maxSourceAge the bucket is returned
with an empty row list while the request still succeeds. -/
theorem preload_nearest_within_bound
    (st : Store) (since untilTs step window maxSourceAge : Int)
    (airspaces airports : List String) (minAltitude maxAltitude : Option Int)
    (hvalid : validatePreload since untilTs step maxSourceAge = none) :
    ∃ resp, preloadSnapshots st since untilTs step window maxSourceAge airspaces airports
        minAltitude maxAltitude = .ok resp ∧
      ∀ b ∈ resp.timestamps,
        (∀ src, resp.sourceTsByBucket b = some src →
          |src - b| ≤ maxSourceAge ∧
            ∀ a ∈ availOf st since untilTs window, ¬(|a - b| < |src - b|)) ∧
        ((∀ a ∈ availOf st since untilTs window, ¬(|a - b| ≤ maxSourceAge)) →
          resp.rowsByTs b = []) := by
  have hstep := validatePreload_none_step hvalid
  refine ⟨_, preloadSnapshots_ok hvalid, ?_⟩
  intro b hb
  have hb' : b ∈ bucketTimestamps since untilTs step := hb
  constructor
  · intro src hsrc
    have hmem := preload_sourceTsByBucket_mem hsrc
    have hspec := resolvedOf_spec hstep _ hmem
    have h1 := hspec.1 src rfl
    dsimp only at h1
    refine ⟨h1.2.1, ?_⟩
    intro a ha
    have := (h1.2.2 a ha).1
    omega
  · intro hno
    obtain ⟨r, hlk, hmem⟩ := preload_bucket_lookup hstep hb'
    cases r with
    | some s =>
      have hspec := resolvedOf_spec hstep _ hmem
      have h1 := hspec.1 s rfl
      exact absurd h1.2.1 (hno s h1.1)
    | none =>
      apply preloadCompute_rowsByTs_none
      unfold sourceLookup
      rw [hlk]

/-- Store with samples at timestamps 100, 115, 130 and 145. -/
def gridStore : Store :=
  ⟨[⟨100, "AAL1", none, 0, 0, none, none, none, none, none, none⟩,
    ⟨115, "AAL1", none, 0, 0, none, none, none, none, none, none⟩,
    ⟨130, "AAL1", none, 0, 0, none, none, none, none, none, none⟩,
    ⟨145, "AAL1", none, 0, 0, none, none, none, none, none, none⟩], [], []⟩

/-- Witness for claim C2 at the request resolve(100, 145, step 15, window 10,
maxSourceAge 8) against gridStore. -/
theorem preload_nearest_within_bound_witness :
    ∃ resp, preloadSnapshots gridStore 100 145 15 10 8 [] [] none none = .ok resp ∧
      ∀ b ∈ resp.timestamps,
        (∀ src, resp.sourceTsByBucket b = some src →
          |src - b| ≤ 8 ∧ ∀ a ∈ availOf gridStore 100 145 10, ¬(|a - b| < |src - b|)) ∧
        ((∀ a ∈ availOf gridStore 100 145 10, ¬(|a - b| ≤ 8)) → resp.rowsByTs b = []) :=
  preload_nearest_within_bound gridStore 100 145 15 10 8 [] [] none none rfl

/-- Store with samples at timestamps 100 and 110 only, equidistant from
bucket timestamp 105. -/
def tieStore : Store :=
  ⟨[⟨100, "AAL1", none, 0, 0, none, none, none, none, none, none⟩,
    ⟨110, "AAL1", none, 0, 0, none, none, none, none, none, none⟩], [], []⟩

/-- Counterexample to claim C1 as stated: with available timestamps 100 and
110 exactly equidistant from the only bucket 105, the resolver assigns
source 100, the left/earlier candidate, not the right/later one (110). -/
theorem preload_tie_break_counterexample :
    (preloadSnapshots tieStore 105 105 15 10 100 [] [] none none).toOption.map
        (fun resp => resp.sourceTsByBucket 105) = some (some 100) ∧
      |(100 : Int) - 105| = |(110 : Int) - 105| ∧ (100 : Int) ≠ 110 := by
  refine ⟨rfl, by decide, by decide⟩

/-- Claim C1 amended: when two available timestamps are exactly equidistant
from a bucket, the resolver selects the left/earlier candidate: any assigned
source timestamp is less than or equal to every available timestamp at equal
distance from the bucket. -/
theorem preload_tie_prefers_earlier
    (st : Store) (since untilTs step window maxSourceAge : Int)
    (airspaces airports : List String) (minAltitude maxAltitude : Option Int)
    (hvalid : validatePreload since untilTs step maxSourceAge = none) :
    ∃ resp, preloadSnapshots st since untilTs step window maxSourceAge airspaces airports
        minAltitude maxAltitude = .ok resp ∧
      ∀ b ∈ resp.timestamps, ∀ src, resp.sourceTsByBucket b = some src →
        ∀ a ∈ availOf st since untilTs window, |a - b| = |src - b| → src ≤ a := by
  have hstep := validatePreload_none_step hvalid
  refine ⟨_, preloadSnapshots_ok hvalid, ?_⟩
  intro b _ src hsrc a ha heq
  have hmem := preload_sourceTsByBucket_mem hsrc
  have hspec := resolvedOf_spec hstep _ hmem
  exact ((hspec.1 src rfl).2.2 a ha).2 heq

/-- Witness for the amended claim C1 at the tieStore request with the
equidistant pair 100/110 around bucket 105. -/
theorem preload_tie_prefers_earlier_witness :
    ∃ resp, preloadSnapshots tieStore 105 105 15 10 100 [] [] none none = .ok resp ∧
      ∀ b ∈ resp.timestamps, ∀ src, resp.sourceTsByBucket b = some src →
        ∀ a ∈ availOf tieStore 105 105 10, |a - b| = |src - b| → src ≤ a :=
  preload_tie_prefers_earlier tieStore 105 105 15 10 100 [] [] none none rfl

/-- Counterexample to claim C3 as stated: a resolve request with
maxSourceAge = 0 does not succeed; the handler rejects it with the
maxSourceAge validation error before reading the store. -/
theorem preload_maxSourceAge_zero_counterexample :
    preloadSnapshots gridStore 100 145 15 10 0 [] [] none none =
        .error (.maxSourceAgeNotPositive 0) ∧
      ∀ resp, preloadSnapshots gridStore 100 145 15 10 0 [] [] none none ≠ .ok resp := by
  constructor
  · rfl
  · intro resp h
    rw [show preloadSnapshots gridStore 100 145 15 10 0 [] [] none none =
      .error (.maxSourceAgeNotPositive 0) from rfl] at h
    exact Except.noConfusion h

/-- Claim C3 amended: a resolve request with max_source_age = 0 (and a
positive step, checked first) is rejected with the validation error echoing
the received maxSourceAge, for every store and every bucket grid; it never
succeeds with empty buckets. -/
theorem preload_maxSourceAge_zero_rejected
    (st : Store) (since untilTs step window : Int)
    (airspaces airports : List String) (minAltitude maxAltitude : Option Int)
    (hstep : 0 < step) :
    preloadSnapshots st since untilTs step window 0 airspaces airports
      minAltitude maxAltitude = .error (.maxSourceAgeNotPositive 0) := by
  unfold preloadSnapshots validatePreload
  rw [if_neg (by omega), if_pos (by omega)]

/-- Witness for the amended claim C3 at a concrete request. -/
theorem preload_maxSourceAge_zero_rejected_witness :
    preloadSnapshots gridStore 100 145 15 10 0 [] [] none none =
      .error (.maxSourceAgeNotPositive 0) :=
  preload_maxSourceAge_zero_rejected gridStore 100 145 15 10 [] [] none none (by decide)

/-- Validation errors echo the offending request parameters. -/
def errorEchoes (since untilTs step maxSourceAge : Int) : PreloadError → Prop
  | .stepNotPositive received => received = step ∧ step ≤ 0
  | .maxSourceAgeNotPositive received => received = maxSourceAge ∧ maxSourceAge ≤ 0
  | .untilBeforeSince s u => s = since ∧ u = untilTs ∧ untilTs < since
  | .rangeTooLarge maxR rs s u =>
    maxR = maxReplayRangeSeconds ∧ rs = untilTs - since ∧ s = since ∧ u = untilTs ∧
      maxReplayRangeSeconds < untilTs - since
  | .tooManyBuckets maxB req =>
    maxB = maxBuckets ∧ req = bucketCountOf since untilTs step ∧ maxBuckets < req

/-- Claim C4: every resolve request with until < since, span above 24 hours,
non-positive step, or bucket count above 10000 is rejected by validation with
an error echoing an offending parameter; the rejection is the same for every
store (no store read happens) and no partial result is produced. -/
theorem preload_invalid_rejected
    (since untilTs step window maxSourceAge : Int)
    (airspaces airports : List String) (minAltitude maxAltitude : Option Int)
    (hbad : untilTs < since ∨ maxReplayRangeSeconds < untilTs - since ∨ step ≤ 0 ∨
      (0 < step ∧ maxBuckets < bucketCountOf since untilTs step)) :
    ∃ e, validatePreload since untilTs step maxSourceAge = some e ∧
      (∀ st : Store, preloadSnapshots st since untilTs step window maxSourceAge airspaces
        airports minAltitude maxAltitude = .error e) ∧
      errorEchoes since untilTs step maxSourceAge e := by
  have hmain : ∃ e, validatePreload since untilTs step maxSourceAge = some e ∧
      errorEchoes since untilTs step maxSourceAge e := by
    unfold validatePreload
    by_cases h1 : step ≤ 0
    · exact ⟨.stepNotPositive step, by rw [if_pos h1], rfl, h1⟩
    · rw [if_neg h1]
      by_cases h2 : maxSourceAge ≤ 0
      · exact ⟨.maxSourceAgeNotPositive maxSourceAge, by rw [if_pos h2], rfl, h2⟩
      · rw [if_neg h2]
        by_cases h3 : untilTs < since
        · exact ⟨.untilBeforeSince since untilTs, by rw [if_pos h3], rfl, rfl, h3⟩
        · rw [if_neg h3]
          by_cases h4 : maxReplayRangeSeconds < untilTs - since
          · exact ⟨.rangeTooLarge maxReplayRangeSeconds (untilTs - since) since untilTs,
              by rw [if_pos h4], rfl, rfl, rfl, rfl, h4⟩
          · rw [if_neg h4]
            by_cases h5 : maxBuckets < bucketCountOf since untilTs step
            · exact ⟨.tooManyBuckets maxBuckets (bucketCountOf since untilTs step),
                by rw [if_pos h5], rfl, rfl, h5⟩
            · exfalso
              rcases hbad with h | h | h | ⟨_, h⟩
              · exact h3 h
              · exact h4 h
              · exact h1 h
              · exact h5 h
  obtain ⟨e, he, hecho⟩ := hmain
  refine ⟨e, he, ?_, hecho⟩
  intro st
  unfold preloadSnapshots
  rw [he]

/-- Witness for claim C4: the out-of-order request (since 10, until 5) is
rejected with its echo, independently of the store. -/
theorem preload_invalid_rejected_witness :
    ∃ e, validatePreload 10 5 15 8 = some e ∧
      (∀ st : Store, preloadSnapshots st 10 5 15 10 8 [] [] none none = .error e) ∧
      errorEchoes 10 5 15 8 e :=
  preload_invalid_rejected 10 5 15 10 8 [] [] none none (Or.inl (by decide))

/-- Claim C5: two buckets resolved to the same source timestamp receive row
sets with identical contents, for pilot rows and ATC rows alike: both are the
redistribution of the single deduplicated fetch grouped at that timestamp. -/
theorem preload_shared_source_identical_rows
    (st : Store) (since untilTs step window maxSourceAge : Int)
    (airspaces airports : List String) (minAltitude maxAltitude : Option Int)
    (resp : PreloadResponse) (b1 b2 s : Int)
    (hok : preloadSnapshots st since untilTs step window maxSourceAge airspaces airports
      minAltitude maxAltitude = .ok resp)
    (h1 : resp.sourceTsByBucket b1 = some s)
    (h2 : resp.sourceTsByBucket b2 = some s) :
    resp.rowsByTs b1 = resp.rowsByTs b2 ∧ resp.atcRowsByTs b1 = resp.atcRowsByTs b2 := by
  obtain ⟨-, rfl⟩ := preloadSnapshots_ok_inv hok
  have hl1 : sourceLookup (resolvedOf st since untilTs step window maxSourceAge) b1 =
    some s := h1
  have hl2 : sourceLookup (resolvedOf st since untilTs step window maxSourceAge) b2 =
    some s := h2
  constructor
  · rw [preloadCompute_rowsByTs_some hl1, preloadCompute_rowsByTs_some hl2]
  · rw [preloadCompute_atcRowsByTs_some hl1, preloadCompute_atcRowsByTs_some hl2]

/-- Store with a single sample timestamp 100, to which both buckets 100 and
115 of the witness request resolve. -/
def dedupStore : Store :=
  ⟨[⟨100, "AAL1", none, 0, 0, none, none, none, none, none, none⟩],
    [⟨100, "BOS_CTR", some "134.700", some 6, none, none⟩], []⟩

/-- Witness for claim C5: buckets 100 and 115 both resolve to source 100 and
carry identical row lists. -/
theorem preload_shared_source_identical_rows_witness :
    (preloadCompute dedupStore 100 115 15 10 100 [] [] none none).rowsByTs 100 =
        (preloadCompute dedupStore 100 115 15 10 100 [] [] none none).rowsByTs 115 ∧
      (preloadCompute dedupStore 100 115 15 10 100 [] [] none none).atcRowsByTs 100 =
        (preloadCompute dedupStore 100 115 15 10 100 [] [] none none).atcRowsByTs 115 :=
  preload_shared_source_identical_rows dedupStore 100 115 15 10 100 [] [] none none
    (preloadCompute dedupStore 100 115 15 10 100 [] [] none none) 100 115 100 rfl rfl rfl

/-- Claim C6: pruneOld deletes exactly the samples strictly older than the
cutoff that lie in no protected event range: a row survives the prune iff it
is not both old and unprotected. -/
theorem pruneOld_exact (st : Store) (cutoffTs : Int) (r : SnapRow)
    (hr : r ∈ st.snapshots) :
    r ∈ (pruneOld st cutoffTs).1.snapshots ↔
      ¬(r.ts < cutoffTs ∧ ¬ProtectedTs st.events r.ts) := by
  unfold pruneOld
  simp only [List.mem_filter]
  constructor
  · rintro ⟨-, hkeep⟩ ⟨hold, hunprot⟩
    rw [Bool.not_eq_true', Bool.and_eq_false_iff] at hkeep
    rcases hkeep with h | h
    · simp [hold] at h
    · rw [Bool.not_eq_false', protectedTs_iff] at h
      exact hunprot h
  · intro h
    refine ⟨hr, ?_⟩
    rw [Bool.not_eq_true', Bool.and_eq_false_iff]
    by_cases hold : r.ts < cutoffTs
    · right
      rw [Bool.not_eq_false']
      have hp : ProtectedTs st.events r.ts := by
        by_contra hnp
        exact h ⟨hold, hnp⟩
      exact (protectedTs_iff st.events r.ts).mpr hp
    · left
      simp [hold]

/-- Store holding one old sample at timestamp 50 protected by an event range
[40, 60], pruned with cutoff 100. -/
def protectedStore : Store :=
  ⟨[⟨50, "AAL1", none, 0, 0, none, none, none, none, none, none⟩], [],
    [⟨some 40, some 60⟩]⟩

/-- Witness for claim C6 at the protected sample of protectedStore. -/
theorem pruneOld_exact_witness :
    ⟨50, "AAL1", none, 0, 0, none, none, none, none, none, none⟩ ∈
        (pruneOld protectedStore 100).1.snapshots ↔
      ¬((50 : Int) < 100 ∧
        ¬ProtectedTs protectedStore.events 50) :=
  pruneOld_exact protectedStore 100
    ⟨50, "AAL1", none, 0, 0, none, none, none, none, none, none⟩
    (List.mem_singleton.mpr rfl)

theorem insertLoop_spec {ts : Int} :
    ∀ {pilots : List PilotInput} {rows : List SnapRow}, insertLoop ts pilots = some rows →
      rows.length = pilots.length ∧ ∀ r ∈ rows, r.ts = ts := by
  intro pilots
  induction pilots with
  | nil =>
    intro rows h
    have : rows = [] := by
      rw [show insertLoop ts [] = some [] from rfl] at h
      exact (Option.some.injEq _ _).mp h |>.symm
    subst this
    exact ⟨rfl, by simp⟩
  | cons p rest ih =>
    intro rows h
    unfold insertLoop at h
    cases hrow : pilotToRow ts p with
    | none => rw [hrow] at h; exact absurd h (by simp)
    | some row =>
      rw [hrow] at h
      cases hrec : insertLoop ts rest with
      | none => rw [hrec] at h; exact absurd h (by simp)
      | some rows' =>
        rw [hrec] at h
        have hrows : rows = row :: rows' := by
          simpa using h.symm
        subst hrows
        have hts : row.ts = ts := by
          unfold pilotToRow at hrow
          split at hrow
          · cases hrow; rfl
          · exact absurd hrow (by simp)
        obtain ⟨hlen, hall⟩ := ih hrec
        refine ⟨by simp [hlen], ?_⟩
        intro r hrmem
        rcases List.mem_cons.mp hrmem with rfl | htail
        · exact hts
        · exact hall r htail

/-- Claim C7: insertSnapshots is all-or-nothing for its timestamp: either it
returns the full row count and the count of rows stored at that timestamp
grows by exactly the batch size, or it fails and the store is unchanged; a
partial batch is never visible. -/
theorem insertSnapshots_atomic (st : Store) (ts : Int) (pilots : List PilotInput) :
    ((insertSnapshots st ts pilots).2 = some pilots.length ∧
      countAt (insertSnapshots st ts pilots).1 ts = countAt st ts + pilots.length) ∨
    ((insertSnapshots st ts pilots).2 = none ∧ (insertSnapshots st ts pilots).1 = st) := by
  unfold insertSnapshots
  cases h : insertLoop ts pilots with
  | none => right; exact ⟨rfl, rfl⟩
  | some rows =>
    left
    refine ⟨rfl, ?_⟩
    obtain ⟨hlen, hall⟩ := insertLoop_spec h
    unfold countAt
    simp only [List.filter_append]
    rw [List.length_append]
    have : rows.filter (fun r => r.ts == ts) = rows := by
      rw [List.filter_eq_self]
      intro r hrmem
      simp [hall r hrmem]
    rw [this, hlen]

theorem lookup_none_of_all_false {features : List Feature} {lat lon : ℚ}
    (h : ∀ f ∈ features, geometryContainsPoint f.geometry lon lat = false) :
    lookup features lat lon = none := by
  induction features with
  | nil => rfl
  | cons f rest ih =>
    unfold lookup
    rw [if_neg, ih]
    · intro g hg
      exact h g (List.mem_cons_of_mem f hg)
    · rw [h f (List.mem_cons_self f rest)]
      simp

theorem polygonContainsPoint_hole_false (outerRing holeRing : List (ℚ × ℚ))
    (holes : List (List (ℚ × ℚ))) (lon lat : ℚ)
    (hhole : holeRing ∈ holes) (hlen : 3 ≤ holeRing.length)
    (hin : ringContainsPoint holeRing lon lat = true) :
    polygonContainsPoint (outerRing :: holes) lon lat = false := by
  show (if outerRing.length < 3 then false
    else if !ringContainsPoint outerRing lon lat then false
    else !(holes.any fun holeRing =>
      decide (3 ≤ holeRing.length) && ringContainsPoint holeRing lon lat)) = false
  by_cases h1 : outerRing.length < 3
  · rw [if_pos h1]
  · rw [if_neg h1]
    by_cases h2 : ringContainsPoint outerRing lon lat
    · rw [if_neg (by simp [h2])]
      have hany : (holes.any fun holeRing =>
          decide (3 ≤ holeRing.length) && ringContainsPoint holeRing lon lat) = true :=
        List.any_eq_true.mpr ⟨holeRing, hhole, by simp [hlen, hin]⟩
      rw [hany]
      rfl
    · rw [if_pos (by simp [Bool.not_eq_true] at h2 ⊢; exact h2)]

/-- Claim C9: a point inside a hole ring (with at least 3 points) of feature
F is not contained in F's polygon, and when it is inside no other feature,
lookup returns none rather than F's label. -/
theorem lookup_hole_yields_none
    (features : List Feature) (lat lon : ℚ) (F : Feature)
    (outerRing holeRing : List (ℚ × ℚ)) (holes : List (List (ℚ × ℚ)))
    (_hF : F ∈ features)
    (hgeom : F.geometry = .polygon (outerRing :: holes))
    (_houter : ringContainsPoint outerRing lon lat = true)
    (hhole : holeRing ∈ holes)
    (hlen : 3 ≤ holeRing.length)
    (hin : ringContainsPoint holeRing lon lat = true)
    (hothers : ∀ G ∈ features, G ≠ F → geometryContainsPoint G.geometry lon lat = false) :
    polygonContainsPoint (outerRing :: holes) lon lat = false ∧
      lookup features lat lon = none := by
  have hpoly := polygonContainsPoint_hole_false outerRing holeRing holes lon lat hhole hlen
    hin
  refine ⟨hpoly, ?_⟩
  apply lookup_none_of_all_false
  intro G hG
  by_cases hGF : G = F
  · rw [hGF, hgeom]
    exact hpoly
  · exact hothers G hG hGF

/-- Feature with a square outer ring and a square hole around (5, 5). -/
def holedFeature : Feature :=
  ⟨"ZNY", .polygon [[(0, 0), (10, 0), (10, 10), (0, 10)], [(4, 4), (6, 4), (6, 6), (4, 6)]],
    ⟨0, 0, 10, 10⟩⟩

/-- Witness for claim C9: the point (5, 5) lies in the hole of holedFeature
and matches nothing. -/
theorem lookup_hole_yields_none_witness :
    polygonContainsPoint [[(0, 0), (10, 0), (10, 10), (0, 10)],
        [(4, 4), (6, 4), (6, 6), (4, 6)]] 5 5 = false ∧
      lookup [holedFeature] 5 5 = none :=
  lookup_hole_yields_none [holedFeature] 5 5 holedFeature
    [(0, 0), (10, 0), (10, 10), (0, 10)] [(4, 4), (6, 4), (6, 6), (4, 6)]
    [[(4, 4), (6, 4), (6, 6), (4, 6)]]
    (List.mem_singleton.mpr rfl) rfl
    (by norm_num [ringContainsPoint, ringEdges, edgeFlips, numberEpsilon])
    (List.mem_singleton.mpr rfl) (by decide)
    (by norm_num [ringContainsPoint, ringEdges, edgeFlips, numberEpsilon])
    (fun G hG hne => absurd (List.mem_singleton.mp hG) hne)

/-- A GeometryCollection feature carrying a sub-polygon that contains the
point (5, 5). -/
def gcFeature : RawFeature :=
  ⟨some (.str "GC1"), ⟨none, none, none, none, none, none, none, none, none⟩,
    some (.geometryCollection [.polygon [[(0, 0), (10, 0), (10, 10), (0, 10)]]])⟩

/-- Counterexample to claim C8 as stated: the point (5, 5) lies inside the
sub-polygon of the GeometryCollection feature gcFeature, yet load drops the
feature (no bounding box is derivable from geometry.coordinates) and lookup
cannot match it. -/
theorem geometryCollection_union_counterexample :
    polygonContainsPoint [[(0, 0), (10, 0), (10, 10), (0, 10)]] 5 5 = true ∧
      loadFeatures [gcFeature] = [] ∧
      lookup (loadFeatures [gcFeature]) 5 5 = none := by
  refine ⟨?_, rfl, rfl⟩
  norm_num [polygonContainsPoint, ringContainsPoint, ringEdges, edgeFlips, numberEpsilon]

/-- Claim C8 amended: a feature whose geometry is a GeometryCollection is
never retained by load: computeGeometryBbox walks only geometry.coordinates,
which a GeometryCollection lacks, so no bounding box is derived and the
feature is dropped before any union of sub-geometry boxes could happen. -/
theorem geometryCollection_feature_dropped
    (feature : RawFeature) (geometries : List Geometry)
    (hgc : feature.geometry = some (.geometryCollection geometries)) :
    extractFeature feature = none := by
  unfold extractFeature
  rw [hgc]
  cases featureAirspaceName feature with
  | none => rfl
  | some airspace =>
    show (match computeGeometryBbox (.geometryCollection geometries) with
      | some bbox => some (⟨airspace, .geometryCollection geometries, bbox⟩ : Feature)
      | none => none) = none
    rfl

/-- Witness for the amended claim C8 at the concrete gcFeature. -/
theorem geometryCollection_feature_dropped_witness :
    extractFeature gcFeature = none :=
  geometryCollection_feature_dropped gcFeature
    [.polygon [[(0, 0), (10, 0), (10, 10), (0, 10)]]] rfl

theorem jvalCandidate_spec {v : Option JVal} {t : String} (h : jvalCandidate v = some t) :
    jsTrim t = t ∧ 0 < t.length := by
  unfold jvalCandidate at h
  split at h
  · next s =>
    dsimp only at h
    split at h
    · next hpos =>
      have ht : jsTrim s = t := by simpa using h
      subst ht
      exact ⟨jsTrim_idem s, hpos⟩
    · exact absurd h (by simp)
  · exact absurd h (by simp)

theorem featureAirspaceName_trimmed {feature : RawFeature} {a : String}
    (h : featureAirspaceName feature = some a) : jsTrim a = a ∧ 0 < a.length := by
  unfold featureAirspaceName at h
  split at h
  · next s heq =>
    have ha : s = a := by simpa using h
    subst ha
    exact jvalCandidate_spec heq
  · obtain ⟨v, _, hv⟩ := List.exists_of_findSome?_eq_some h
    exact jvalCandidate_spec hv

theorem extractFeature_airspace {feature : RawFeature} {f : Feature}
    (h : extractFeature feature = some f) : featureAirspaceName feature = some f.airspace := by
  unfold extractFeature at h
  split at h
  · next airspace geometry hname hgeom =>
    split at h
    · next bbox hbbox =>
      have : (⟨airspace, geometry, bbox⟩ : Feature) = f := by simpa using h
      rw [hname, ← this]
    · exact absurd h (by simp)
  · exact absurd h (by simp)

theorem lookup_label_mem {features : List Feature} {lat lon : ℚ} {s : String}
    (h : lookup features lat lon = some s) : ∃ f ∈ features, f.airspace = s := by
  induction features with
  | nil => simp [lookup] at h
  | cons f rest ih =>
    unfold lookup at h
    split at h
    · have : f.airspace = s := by simpa using h
      exact ⟨f, List.mem_cons_self f rest, this⟩
    · obtain ⟨g, hg, hgs⟩ := ih h
      exact ⟨g, List.mem_cons_of_mem f hg, hgs⟩

/-- Claim C10: every feature retained by load carries a non-empty,
whitespace-trimmed label (geometry and bounding box are present by
construction of the retained-feature record), and lookup therefore returns
either none or a non-empty trimmed string. -/
theorem loadFeatures_labels_trimmed_nonempty (features : List RawFeature) :
    (∀ f ∈ loadFeatures features, jsTrim f.airspace = f.airspace ∧ f.airspace ≠ "") ∧
      ∀ (lat lon : ℚ) (s : String),
        lookup (loadFeatures features) lat lon = some s → jsTrim s = s ∧ s ≠ "" := by
  have hlabel : ∀ f ∈ loadFeatures features,
      jsTrim f.airspace = f.airspace ∧ f.airspace ≠ "" := by
    intro f hf
    obtain ⟨raw, _, hraw⟩ := List.mem_filterMap.mp hf
    obtain ⟨htrim, hpos⟩ := featureAirspaceName_trimmed (extractFeature_airspace hraw)
    exact ⟨htrim, ne_empty_of_length_pos hpos⟩
  refine ⟨hlabel, ?_⟩
  intro lat lon s hs
  obtain ⟨f, hf, hfa⟩ := lookup_label_mem hs
  rw [← hfa]
  exact hlabel f hf

/-- Raw feature whose id is the non-trimmed string " ZNY " over a square
polygon containing (5, 5). -/
def labelledRaw : RawFeature :=
  ⟨some (.str " ZNY "), ⟨none, none, none, none, none, none, none, none, none⟩,
    some (.polygon [[(0, 0), (10, 0), (10, 10), (0, 10)]])⟩

/-- Witness for claim C10: the loaded label of labelledRaw is looked up at
(5, 5) and is the trimmed, non-empty string ZNY. -/
theorem loadFeatures_labels_trimmed_nonempty_witness :
    jsTrim "ZNY" = "ZNY" ∧ "ZNY" ≠ "" := by
  have hlk : lookup (loadFeatures [labelledRaw]) 5 5 = some "ZNY" := by
    have hlf : loadFeatures [labelledRaw] =
        [⟨"ZNY", .polygon [[(0, 0), (10, 0), (10, 10), (0, 10)]], ⟨0, 0, 10, 10⟩⟩] := rfl
    rw [hlf]
    show (if bboxContainsPoint ⟨0, 0, 10, 10⟩ 5 5 &&
        geometryContainsPoint (.polygon [[(0, 0), (10, 0), (10, 10), (0, 10)]]) 5 5 then
        some "ZNY" else lookup [] 5 5) = some "ZNY"
    rw [if_pos]
    norm_num [bboxContainsPoint, geometryContainsPoint, polygonContainsPoint,
      ringContainsPoint, ringEdges, edgeFlips, numberEpsilon]
  exact (loadFeatures_labels_trimmed_nonempty [labelledRaw]).2 5 5 "ZNY" hlk

end VatsimReplay
